import Mathlib

/-!
Verification of the indicator/signal core of the stock-analyzer repository,
a shallow embedding of `src/src/app/api/stock/[symbol]/route.ts`.

Numeric values are modelled as rationals (`ℚ`); the JS `null` entries of the
per-index indicator arrays are modelled as `Option ℚ` with `none` for `null`.
JS index arithmetic that can go negative is carried out in `ℤ` where the
source compares possibly-negative quantities (`i < period - 1`).
-/

namespace StockAnalyzer

/-- Embeds `calculateSMA` (route.ts lines 4-15).
`data.slice(i - period + 1, i + 1)` is `(data.drop (i + 1 - period)).take period`
at every reachable index (`i ≥ period - 1`). -/
def calculateSMA (data : List ℚ) (period : ℕ) : List (Option ℚ) :=
  (List.range data.length).map fun (i : ℕ) =>
    if (i : ℤ) < (period : ℤ) - 1 then none
    else some (((data.drop (i + 1 - period)).take period).sum / period)

/-- Loop body of `calculateEMA` (route.ts lines 21-31): walks the data
left-to-right carrying the previously pushed entry.  In the recurrence branch
the source reads `result[i - 1] as number`; a `null` previous entry coerces to
`0` in JS arithmetic, which `prev.getD 0` mirrors (that branch is unreachable
for `period ≥ 1` anyway). -/
def emaGo (m : ℚ) (period : ℕ) (seed : ℚ) : List ℚ → ℕ → Option ℚ → List (Option ℚ)
  | [], _, _ => []
  | x :: xs, i, prev =>
    let cur : Option ℚ :=
      if (i : ℤ) < (period : ℤ) - 1 then none
      else if (i : ℤ) = (period : ℤ) - 1 then some seed
      else some ((x - prev.getD 0) * m + prev.getD 0)
    cur :: emaGo m period seed xs (i + 1) cur

/-- Embeds `calculateEMA` (route.ts lines 17-33): seed at index `period - 1`
is the SMA of the first `period` points, multiplier `2 / (period + 1)`. -/
def calculateEMA (data : List ℚ) (period : ℕ) : List (Option ℚ) :=
  emaGo (2 / ((period : ℚ) + 1)) period ((data.take period).sum / period) data 0 none

/-- Embeds the `rsiResult` computation of `calculateRSI` (route.ts lines 68-97),
the value actually returned.  (The first pass at lines 36-66 is dead: its
`result` array is discarded, per spec §9.)  The inner loop runs
`j = i - period + 1 .. i` guarded by `j > 0`. -/
def calculateRSI (closes : List ℚ) (period : ℕ) : List (Option ℚ) :=
  (List.range closes.length).map fun (i : ℕ) =>
    if i < period then none
    else
      let js := (List.range period).map fun t => i - period + 1 + t
      let avgGain :=
        (js.map fun j =>
          if 0 < j then
            (if 0 < closes.getD j 0 - closes.getD (j - 1) 0 then
              closes.getD j 0 - closes.getD (j - 1) 0 else 0)
          else 0).sum / period
      let avgLoss :=
        (js.map fun j =>
          if 0 < j then
            (if closes.getD j 0 - closes.getD (j - 1) 0 < 0 then
              |closes.getD j 0 - closes.getD (j - 1) 0| else 0)
          else 0).sum / period
      if avgLoss = 0 then some 100
      else some (100 - 100 / (1 + avgGain / avgLoss))

/-- Embeds the signal-line re-expansion loop of `calculateMACD`
(route.ts lines 117-126).  The source reads `signalEma[validIndex] || null`:
with JS falsiness, a `null` entry, an out-of-range read (`undefined`) and a
value of exactly `0` all become `null`; only a nonzero number survives. -/
def expandSignal : List (Option ℚ) → List (Option ℚ) → List (Option ℚ)
  | [], _ => []
  | none :: ms, es => none :: expandSignal ms es
  | some _ :: ms, es =>
    (match es with
     | [] => none
     | none :: _ => none
     | some v :: _ => if v = 0 then none else some v) :: expandSignal ms es.tail

/-- MACD line (route.ts lines 104-111): `EMA12 - EMA26`, absent when either is. -/
def macdLine (closes : List ℚ) : List (Option ℚ) :=
  (List.range closes.length).map fun (i : ℕ) =>
    match (calculateEMA closes 12).getD i none, (calculateEMA closes 26).getD i none with
    | some a, some b => some (a - b)
    | _, _ => none

/-- The `validMacd` array (route.ts line 114): the compacted subsequence of defined MACD values. -/
def macdValid (closes : List ℚ) : List ℚ :=
  (macdLine closes).filterMap id

/-- The `signalEma` array (route.ts line 115): 9-period EMA over the compacted MACD values. -/
def macdSignalEma (closes : List ℚ) : List (Option ℚ) :=
  calculateEMA (macdValid closes) 9

/-- Signal line (route.ts lines 117-126). -/
def macdSignalLine (closes : List ℚ) : List (Option ℚ) :=
  expandSignal (macdLine closes) (macdSignalEma closes)

/-- Histogram (route.ts lines 129-136): `MACD - signal`, absent when either is. -/
def macdHistogram (closes : List ℚ) : List (Option ℚ) :=
  (List.range (macdLine closes).length).map fun i =>
    match (macdLine closes).getD i none, (macdSignalLine closes).getD i none with
    | some a, some b => some (a - b)
    | _, _ => none

structure MACDResult where
  macd : List (Option ℚ)
  signal : List (Option ℚ)
  histogram : List (Option ℚ)

/-- Embeds `calculateMACD` (route.ts lines 100-139). -/
def calculateMACD (closes : List ℚ) : MACDResult :=
  ⟨macdLine closes, macdSignalLine closes, macdHistogram closes⟩

structure BollingerResult where
  upper : List (Option ℚ)
  middle : List (Option ℚ)
  lower : List (Option ℚ)

/-- Embeds `calculateBollingerBands` (route.ts lines 141-161).  `Math.sqrt` has
no exact rational counterpart, so the square root is a parameter `sqrtQ`; every
claim about this function holds for an arbitrary `sqrtQ`. -/
def calculateBollingerBands (sqrtQ : ℚ → ℚ) (closes : List ℚ) (period : ℕ)
    (stdDev : ℚ) : BollingerResult :=
  let middle := calculateSMA closes period
  let upper := (List.range closes.length).map fun (i : ℕ) =>
    if (i : ℤ) < (period : ℤ) - 1 then none
    else
      let slice := (closes.drop (i + 1 - period)).take period
      let mean := (middle.getD i none).getD 0
      let std := sqrtQ ((slice.map fun v => (v - mean) ^ 2).sum / period)
      some (mean + stdDev * std)
  let lower := (List.range closes.length).map fun (i : ℕ) =>
    if (i : ℤ) < (period : ℤ) - 1 then none
    else
      let slice := (closes.drop (i + 1 - period)).take period
      let mean := (middle.getD i none).getD 0
      let std := sqrtQ ((slice.map fun v => (v - mean) ^ 2).sum / period)
      some (mean - stdDev * std)
  ⟨upper, middle, lower⟩

/-- Support pivot test of `findSupportResistance` (route.ts lines 170-171):
the JS `&&` chain — `lows[i]` strictly below its two left and two right
neighbours. -/
def isSupportAt (lows : List ℚ) (i : ℕ) : Bool :=
  decide (lows.getD i 0 < lows.getD (i - 1) 0 ∧
    lows.getD i 0 < lows.getD (i - 2) 0 ∧
    lows.getD i 0 < lows.getD (i + 1) 0 ∧
    lows.getD i 0 < lows.getD (i + 2) 0)

/-- Resistance pivot test (route.ts lines 175-176). -/
def isResistanceAt (highs : List ℚ) (i : ℕ) : Bool :=
  decide (highs.getD (i - 1) 0 < highs.getD i 0 ∧
    highs.getD (i - 2) 0 < highs.getD i 0 ∧
    highs.getD (i + 1) 0 < highs.getD i 0 ∧
    highs.getD (i + 2) 0 < highs.getD i 0)

/-- Embeds `findSupportResistance` (route.ts lines 163-189).  The scan loop is
`for (i = 2; i < lows.length - 2; i++)` — note both the support and the
resistance scan are bounded by `lows.length`, as in the source.  `slice(-3)`
is `drop (length - 3)`; `sort((a,b) => b - a)` sorts descending and
`sort((a,b) => a - b)` ascending. -/
def findSupportResistance (lows highs : List ℚ) : List ℚ × List ℚ :=
  let scan := (List.range lows.length).foldl
    (fun (acc : List ℚ × List ℚ) i =>
      if 2 ≤ i ∧ i < lows.length - 2 then
        (if isSupportAt lows i then acc.1 ++ [lows.getD i 0] else acc.1,
         if isResistanceAt highs i then acc.2 ++ [highs.getD i 0] else acc.2)
      else acc)
    ([], [])
  let recentSupport := (scan.1.drop (scan.1.length - 3)).mergeSort fun a b => decide (b ≤ a)
  let recentResistance := (scan.2.drop (scan.2.length - 3)).mergeSort fun a b => decide (a ≤ b)
  (if recentSupport.length ≠ 0 then recentSupport else [lows.getD (lows.length - 1) 0],
   if recentResistance.length ≠ 0 then recentResistance else [highs.getD (highs.length - 1) 0])

/-- Input record of `calculateSignal` (route.ts lines 191-200). -/
structure SignalInput where
  currentPrice : ℚ
  ma20 : ℚ
  ma50 : ℚ
  rsi : ℚ
  macd : ℚ
  macdSignal : ℚ
  bollingerUpper : ℚ
  bollingerLower : ℚ

/-- The `buySignals` accumulator of `calculateSignal` (route.ts lines 201-250):
25 for each bullish condition, 12.5 for the RSI / Bollinger neutral zones. -/
def buySignals (d : SignalInput) : ℚ :=
  (if d.ma50 < d.ma20 then 25 else 0) +
  (if d.rsi < 30 then 25 else if 70 < d.rsi then 0 else 25 / 2) +
  (if d.macdSignal < d.macd then 25 else 0) +
  (if d.currentPrice < d.bollingerLower then 25
   else if d.bollingerUpper < d.currentPrice then 0 else 25 / 2)

/-- JS `Math.round`: rounds half towards positive infinity. -/
def jsRound (q : ℚ) : ℤ := ⌊q + 1 / 2⌋

structure SignalResult where
  confidence : ℤ
  signal : String
  maCrossover : String
  rsiVerdict : String
  macdVerdict : String
  bollingerVerdict : String

/-- Embeds `calculateSignal` (route.ts lines 191-259): `confidence` is
`Math.round(buySignals)` while the verdict branches on the unrounded
`buySignals`.  The per-indicator rationale strings (pure presentation text)
are embedded only as their BUY/SELL/NEUTRAL verdicts. -/
def calculateSignal (d : SignalInput) : SignalResult :=
  { confidence := jsRound (buySignals d)
    signal :=
      if 50 < buySignals d then "BUY"
      else if buySignals d < 50 then "SELL" else "HOLD"
    maCrossover := if d.ma50 < d.ma20 then "BUY" else "SELL"
    rsiVerdict := if d.rsi < 30 then "BUY" else if 70 < d.rsi then "SELL" else "NEUTRAL"
    macdVerdict := if d.macdSignal < d.macd then "BUY" else "SELL"
    bollingerVerdict :=
      if d.currentPrice < d.bollingerLower then "BUY"
      else if d.bollingerUpper < d.currentPrice then "SELL" else "NEUTRAL" }

/-- Embeds `determineMarketSentiment` (route.ts lines 261-287): sequential
adjustments to a score starting at 50, one final clamp to `[0,100]`, then the
threshold chain for the label. -/
def determineMarketSentiment (rsi macdValue priceVsMA20 : ℚ) : String × ℚ :=
  let s1 : ℚ :=
    if rsi < 30 then 50 - 15
    else if rsi < 40 then 50 - 10
    else if 70 < rsi then 50 + 15
    else if 60 < rsi then 50 + 10
    else 50
  let s2 : ℚ :=
    if 0 < macdValue then s1 + min 15 (|macdValue| * 10)
    else s1 - min 15 (|macdValue| * 10)
  let s3 : ℚ := s2 + priceVsMA20
  let score : ℚ := max 0 (min 100 s3)
  let sentiment : String :=
    if 80 ≤ score then "Very Bullish"
    else if 60 ≤ score then "Bullish"
    else if 40 ≤ score then "Neutral"
    else if 20 ≤ score then "Bearish"
    else "Very Bearish"
  (sentiment, score)

/-- The `latestX || default` pattern of `GET` (route.ts lines 358-364): JS `||`
falls through to the default on every falsy value, i.e. on a `null` entry and
also on a defined value of exactly `0`. -/
def orDefault (v : Option ℚ) (d : ℚ) : ℚ :=
  match v with
  | none => d
  | some x => if x = 0 then d else x

/-- Result bundle assembled by `GET` (route.ts lines 437-480).  The
`chartData` block and the day/52-week extrema (lines 433-435, 445-446,
468-479) are presentation-layer reformatting of the same series and are not
modelled; `name`/`currency` are metadata pass-through. -/
structure Bundle where
  currentPrice : ℚ
  previousClose : ℚ
  change : ℚ
  changePercent : ℚ
  volume : Option ℚ
  ma20 : Option ℚ
  ma50 : Option ℚ
  ma200 : Option ℚ
  rsi : Option ℚ
  macd : Option ℚ
  macdSignal : Option ℚ
  macdHistogram : Option ℚ
  bollingerUpper : Option ℚ
  bollingerMiddle : Option ℚ
  bollingerLower : Option ℚ
  support : List ℚ
  resistance : List ℚ
  signal : SignalResult
  sentiment : String × ℚ

/-- Embeds the evaluation body of `GET` (route.ts lines 320-480): each raw
array is null-filtered independently (lines 321-325), the indicators are
computed, the latest values extracted, and the bundle assembled.  There is no
comparison of the array lengths anywhere on this path, and no failure exit:
the function is total and always yields a bundle. -/
def evalBundle (sqrtQ : ℚ → ℚ) (closesRaw highsRaw lowsRaw volumesRaw :
    List (Option ℚ)) : Bundle :=
  let closes := closesRaw.filterMap id
  let highs := highsRaw.filterMap id
  let lows := lowsRaw.filterMap id
  let volumes := volumesRaw.filterMap id
  let ma20 := calculateSMA closes 20
  let ma50 := calculateSMA closes 50
  let ma200 := calculateSMA closes 200
  let rsi := calculateRSI closes 14
  let macdR := calculateMACD closes
  let boll := calculateBollingerBands sqrtQ closes 20 2
  let sr := findSupportResistance lows highs
  let lastIndex := closes.length - 1
  let currentPrice := closes.getD lastIndex 0
  let previousClose := if 1 < closes.length then closes.getD (lastIndex - 1) 0 else currentPrice
  let change := currentPrice - previousClose
  let changePercent := if 0 < previousClose then change / previousClose * 100 else 0
  let latestMa20 := ma20.getD lastIndex none
  let latestMa50 := ma50.getD lastIndex none
  let latestMa200 := ma200.getD lastIndex none
  let latestRsi := rsi.getD lastIndex none
  let latestMacd := macdR.macd.getD lastIndex none
  let latestMacdSignal := macdR.signal.getD lastIndex none
  let latestBollingerUpper := boll.upper.getD lastIndex none
  let latestBollingerLower := boll.lower.getD lastIndex none
  let priceVsMA20Percent : ℚ :=
    match latestMa20 with
    | none => 0
    | some m => if m = 0 then 0 else (currentPrice - m) / m * 100
  let signalAnalysis := calculateSignal
    { currentPrice := currentPrice
      ma20 := orDefault latestMa20 currentPrice
      ma50 := orDefault latestMa50 currentPrice
      rsi := orDefault latestRsi 50
      macd := orDefault latestMacd 0
      macdSignal := orDefault latestMacdSignal 0
      bollingerUpper := orDefault latestBollingerUpper currentPrice
      bollingerLower := orDefault latestBollingerLower currentPrice }
  let sentimentR := determineMarketSentiment (orDefault latestRsi 50)
    (orDefault latestMacd 0) priceVsMA20Percent
  { currentPrice := currentPrice
    previousClose := previousClose
    change := change
    changePercent := changePercent
    volume := volumes.get? lastIndex
    ma20 := latestMa20
    ma50 := latestMa50
    ma200 := latestMa200
    rsi := latestRsi
    macd := latestMacd
    macdSignal := latestMacdSignal
    macdHistogram := macdR.histogram.getD lastIndex none
    bollingerUpper := latestBollingerUpper
    bollingerMiddle := boll.middle.getD lastIndex none
    bollingerLower := latestBollingerLower
    support := sr.1
    resistance := sr.2
    signal := signalAnalysis
    sentiment := sentimentR }

/-- Models the `GET` handler body after the fetch (route.ts lines 306-488).
The only throw sites inside the `try` block after a response arrives are the
format check at line 308-310 (`data.chart?.result?.[0]` missing) and the quote
check at line 316-318 (`quote`/`quote.close` missing), modelled by the two
flags; both fire before the arrays are read and neither inspects array
lengths.  Past them the evaluation runs unconditionally to a bundle. -/
def getRoute (chartOk quoteOk : Bool) (sqrtQ : ℚ → ℚ)
    (closesRaw highsRaw lowsRaw volumesRaw : List (Option ℚ)) :
    Except String Bundle :=
  if !chartOk then Except.error "Invalid data format received"
  else if !quoteOk then Except.error "No quote data available"
  else Except.ok (evalBundle sqrtQ closesRaw highsRaw lowsRaw volumesRaw)

/-- Returns `true` iff the route model produced a result bundle (HTTP 200 path) rather
than an error (the catch branch at route.ts lines 482-488). -/
def producedBundle (e : Except String Bundle) : Bool :=
  match e with
  | Except.ok _ => true
  | Except.error _ => false

/-! ## Specification-side definitions

These follow the wording of `spec.md` (and of the claims), to be compared with
the source-side definitions above. -/

/-- Spec §4.3: the trailing `period` close-to-close changes ending at index
`i`, their zero-filled gain/loss simple averages, and the RSI formula
`100 - 100/(1+RS)` with the `avgLoss = 0 ↦ 100` policy. -/
def rsiSpec (closes : List ℚ) (period i : ℕ) : ℚ :=
  let changes := (List.range period).map fun t =>
    closes.getD (i - period + 1 + t) 0 - closes.getD (i - period + t) 0
  let avgGain := (changes.map fun c => max c 0).sum / period
  let avgLoss := (changes.map fun c => max (-c) 0).sum / period
  if avgLoss = 0 then 100 else 100 - 100 / (1 + avgGain / avgLoss)

/-- Spec §4.4 (as amended): the value of the signal line at index `i`, stated
positionally — absent where MACD is absent, else the `k`-th entry of the
9-period EMA over the compacted MACD values, where `k` counts the defined MACD
entries before `i`; an absent or exactly-zero EMA entry yields absent. -/
def signalSpec (ms es : List (Option ℚ)) (i : ℕ) : Option ℚ :=
  match ms.getD i none with
  | none => none
  | some _ =>
    match es.getD ((ms.take i).countP fun o => o.isSome) none with
    | none => none
    | some v => if v = 0 then none else some v

/-- Spec §4.6: a support candidate is an interior index (2-point margin on
each side) whose low is strictly below its two left and two right neighbours. -/
def SupportCandidate (lows : List ℚ) (i : ℕ) : Prop :=
  2 ≤ i ∧ i + 3 ≤ lows.length ∧
  lows.getD i 0 < lows.getD (i - 1) 0 ∧ lows.getD i 0 < lows.getD (i - 2) 0 ∧
  lows.getD i 0 < lows.getD (i + 1) 0 ∧ lows.getD i 0 < lows.getD (i + 2) 0

instance (lows : List ℚ) (i : ℕ) : Decidable (SupportCandidate lows i) := by
  unfold SupportCandidate; infer_instance

/-- Spec §4.6: a resistance candidate, symmetrically with strictly greater. -/
def ResistanceCandidate (highs : List ℚ) (i : ℕ) : Prop :=
  2 ≤ i ∧ i + 3 ≤ highs.length ∧
  highs.getD (i - 1) 0 < highs.getD i 0 ∧ highs.getD (i - 2) 0 < highs.getD i 0 ∧
  highs.getD (i + 1) 0 < highs.getD i 0 ∧ highs.getD (i + 2) 0 < highs.getD i 0

instance (highs : List ℚ) (i : ℕ) : Decidable (ResistanceCandidate highs i) := by
  unfold ResistanceCandidate; infer_instance

/-- The support-candidate low values in index order. -/
def supportCandidateValues (lows : List ℚ) : List ℚ :=
  ((List.range lows.length).filter fun i => decide (SupportCandidate lows i)).map
    fun i => lows.getD i 0

/-- The resistance-candidate high values in index order. -/
def resistanceCandidateValues (highs : List ℚ) : List ℚ :=
  ((List.range highs.length).filter fun i => decide (ResistanceCandidate highs i)).map
    fun i => highs.getD i 0

/-- The most recent up-to-three entries of a list (spec §4.6 `slice(-3)`). -/
def lastUpTo3 (l : List ℚ) : List ℚ := l.drop (l.length - 3)

/-- Descending sort (spec §4.6: supports closest-to-price first). -/
def sortDesc (l : List ℚ) : List ℚ := l.mergeSort fun a b => decide (b ≤ a)

/-- Ascending sort (spec §4.6: resistances). -/
def sortAsc (l : List ℚ) : List ℚ := l.mergeSort fun a b => decide (a ≤ b)

/-- Spec §4.8 RSI adjustment: else-if chain `<30 → -15`, `<40 → -10`,
`>70 → +15`, `>60 → +10`, else 0. -/
def rsiAdjust (rsi : ℚ) : ℚ :=
  if rsi < 30 then -15
  else if rsi < 40 then -10
  else if 70 < rsi then 15
  else if 60 < rsi then 10
  else 0

/-- Spec §4.8 MACD adjustment: `±min(15, |macd|·10)` by the sign test `macd > 0`. -/
def macdAdjust (m : ℚ) : ℚ :=
  if 0 < m then min 15 (|m| * 10) else -min 15 (|m| * 10)

/-- Spec §4.8 label thresholds. -/
def sentimentLabel (score : ℚ) : String :=
  if 80 ≤ score then "Very Bullish"
  else if 60 ≤ score then "Bullish"
  else if 40 ≤ score then "Neutral"
  else if 20 ≤ score then "Bearish"
  else "Very Bearish"

/-! ## Helper lemmas -/

lemma getD_map_range {α : Type} (f : ℕ → α) (n i : ℕ) (h : i < n) (d : α) :
    ((List.range n).map f).getD i d = f i := by
  rw [List.getD_eq_getElem?_getD]
  simp [List.getElem?_map, List.getElem?_range h]

lemma emaGo_length (m : ℚ) (period : ℕ) (seed : ℚ) :
    ∀ (xs : List ℚ) (i : ℕ) (prev : Option ℚ),
      (emaGo m period seed xs i prev).length = xs.length := by
  intro xs
  induction xs with
  | nil => intro i prev; rfl
  | cons x xs ih => intro i prev; simp [emaGo, ih]

lemma calculateEMA_length (data : List ℚ) (period : ℕ) :
    (calculateEMA data period).length = data.length := by
  unfold calculateEMA; exact emaGo_length _ _ _ _ _ _

lemma emaGo_all_none (m : ℚ) (period : ℕ) (seed : ℚ) :
    ∀ (xs : List ℚ) (i : ℕ) (prev : Option ℚ),
      (i : ℤ) + xs.length + 1 ≤ (period : ℤ) →
      emaGo m period seed xs i prev = List.replicate xs.length none := by
  intro xs
  induction xs with
  | nil => intro i prev _; rfl
  | cons x xs ih =>
    intro i prev h
    have hlen : ((x :: xs).length : ℤ) = (xs.length : ℤ) + 1 := by push_cast [List.length_cons]; ring
    have hi : (i : ℤ) < (period : ℤ) - 1 := by rw [hlen] at h; omega
    have hrec : ((i + 1 : ℕ) : ℤ) + xs.length + 1 ≤ (period : ℤ) := by
      push_cast; rw [hlen] at h; omega
    simp only [emaGo, hi, if_true, List.length_cons, List.replicate_succ]
    exact congrArg _ (ih (i + 1) _ hrec)

lemma calculateEMA_all_none (data : List ℚ) (period : ℕ)
    (h : data.length < period) :
    calculateEMA data period = List.replicate data.length none := by
  unfold calculateEMA
  exact emaGo_all_none _ _ _ _ 0 none (by push_cast; omega)

lemma expandSignal_length (ms : List (Option ℚ)) :
    ∀ es : List (Option ℚ), (expandSignal ms es).length = ms.length := by
  induction ms with
  | nil => intro es; rfl
  | cons head tail ih =>
    intro es
    cases head <;> simp [expandSignal, ih]

lemma filterMap_id_replicate_none (n : ℕ) :
    (List.replicate n (none : Option ℚ)).filterMap id = [] := by
  induction n with
  | zero => rfl
  | succ k ih => simp [List.replicate_succ, List.filterMap_cons, ih]

lemma expandSignal_replicate_none (n : ℕ) (es : List (Option ℚ)) :
    expandSignal (List.replicate n none) es = List.replicate n none := by
  induction n generalizing es with
  | zero => rfl
  | succ k ih => simp [List.replicate_succ, expandSignal, ih]

lemma getD_replicate_none (n i : ℕ) :
    (List.replicate n (none : Option ℚ)).getD i none = none := by
  rw [List.getD_eq_getElem?_getD]
  rcases lt_or_le i n with h | h
  · simp [List.getElem?_replicate, h]
  · rw [List.getElem?_eq_none (by simpa using h)]; rfl

lemma macdLine_length (closes : List ℚ) :
    (macdLine closes).length = closes.length := by
  simp [macdLine]

lemma map_range_none {α : Type} (n : ℕ) (f : ℕ → Option α)
    (h : ∀ i < n, f i = none) :
    (List.range n).map f = List.replicate n (none : Option α) := by
  have h1 : (List.range n).map f = (List.range n).map fun _ => (none : Option α) :=
    List.map_congr_left fun i hi => h i (List.mem_range.mp hi)
  rw [h1]
  simp [List.map_const']

lemma get?_tail_eq {α : Type} (l : List α) (k : ℕ) :
    l.tail.get? k = l.get? (k + 1) := by
  cases l <;> simp

lemma expandSignal_getD (ms : List (Option ℚ)) :
    ∀ (es : List (Option ℚ)) (i : ℕ), i < ms.length →
      (expandSignal ms es).getD i none = signalSpec ms es i := by
  induction ms with
  | nil => intro es i h; exact absurd h (by simp)
  | cons head tail ih =>
    intro es i h
    cases head with
    | none =>
      cases i with
      | zero => simp [expandSignal, signalSpec]
      | succ n =>
        have hn : n < tail.length := by simpa using h
        have lhs : (expandSignal (none :: tail) es).getD (n + 1) none =
            (expandSignal tail es).getD n none := by
          simp [expandSignal, List.getD]
        rw [lhs, ih es n hn]
        simp [signalSpec, List.getD, List.countP_cons]
    | some v =>
      cases i with
      | zero =>
        rcases es with _ | ⟨e, es'⟩
        · simp [expandSignal, signalSpec, List.getD]
        · rcases e with _ | w <;> simp [expandSignal, signalSpec, List.getD]
      | succ n =>
        have hn : n < tail.length := by simpa using h
        have lhs : (expandSignal (some v :: tail) es).getD (n + 1) none =
            (expandSignal tail es.tail).getD n none := by
          simp [expandSignal, List.getD]
        rw [lhs, ih es.tail n hn]
        simp [signalSpec, List.getD, List.take_succ_cons, List.countP_cons,
          get?_tail_eq]

lemma emaGo_const (m c : ℚ) (p : ℕ) :
    ∀ (n i : ℕ) (prev : Option ℚ), (p ≤ i → prev = some c) →
      emaGo m p c (List.replicate n c) i prev =
        (List.range' i n).map fun (j : ℕ) =>
          if (j : ℤ) < (p : ℤ) - 1 then none else some c := by
  intro n
  induction n with
  | zero => intro i prev _; rfl
  | succ k ih =>
    intro i prev hprev
    rw [List.replicate_succ]
    simp only [emaGo, List.range', List.map_cons]
    rcases lt_trichotomy ((i : ℤ)) ((p : ℤ) - 1) with hlt | heq | hgt
    · rw [if_pos hlt, if_pos hlt, ih (i + 1) _ (fun h => absurd hlt (by omega))]
    · have hA : ¬(i : ℤ) < (p : ℤ) - 1 := by omega
      rw [if_neg hA, if_pos heq, if_neg hA, ih (i + 1) _ (fun _ => rfl)]
    · have hpi : p ≤ i := by omega
      have hA : ¬(i : ℤ) < (p : ℤ) - 1 := by omega
      have hB : ¬(i : ℤ) = (p : ℤ) - 1 := by omega
      rw [hprev hpi]
      rw [if_neg hA, if_neg hB, if_neg hA]
      have hval : (c - (some c : Option ℚ).getD 0) * m + (some c : Option ℚ).getD 0 = c := by
        simp
      rw [hval, ih (i + 1) _ (fun _ => rfl)]

lemma calculateEMA_replicate (c : ℚ) (p n : ℕ) (hp : 1 ≤ p) (hn : p ≤ n) :
    calculateEMA (List.replicate n c) p =
      (List.range n).map fun (j : ℕ) =>
        if (j : ℤ) < (p : ℤ) - 1 then none else some c := by
  unfold calculateEMA
  have hseed : ((List.replicate n c).take p).sum / (p : ℚ) = c := by
    rw [List.take_replicate, min_eq_left hn, List.sum_replicate, nsmul_eq_mul,
      mul_div_cancel_left₀ _ (Nat.cast_ne_zero.mpr (by omega) : (p : ℚ) ≠ 0)]
  rw [hseed,
    emaGo_const (2 / ((p : ℚ) + 1)) c p n 0 none (fun h => absurd h (by omega)),
    List.range_eq_range']

lemma foldl_scan_pair (G : ℕ → Prop) [DecidablePred G] (ps qs : ℕ → Bool)
    (f g : ℕ → ℚ) :
    ∀ (l : List ℕ) (acc : List ℚ × List ℚ),
      l.foldl (fun acc i =>
        if G i then
          (if ps i then acc.1 ++ [f i] else acc.1,
           if qs i then acc.2 ++ [g i] else acc.2)
        else acc) acc =
      (acc.1 ++ (l.filter fun i => decide (G i) && ps i).map f,
       acc.2 ++ (l.filter fun i => decide (G i) && qs i).map g) := by
  intro l
  induction l with
  | nil => intro acc; simp
  | cons a l ih =>
    intro acc
    rw [List.foldl_cons, ih, List.filter_cons, List.filter_cons]
    by_cases hG : G a
    · by_cases hp : ps a <;> by_cases hq : qs a <;>
        simp [hG, hp, hq, List.append_assoc]
    · simp [hG]

lemma support_pred_eq (lows : List ℚ) (i : ℕ) :
    (decide (2 ≤ i ∧ i < lows.length - 2) && isSupportAt lows i) =
      decide (SupportCandidate lows i) := by
  simp only [isSupportAt, SupportCandidate, ← Bool.decide_and, decide_eq_decide]
  constructor
  · rintro ⟨⟨hi2, hin⟩, h1, h2, h3, h4⟩
    exact ⟨hi2, by omega, h1, h2, h3, h4⟩
  · rintro ⟨hi2, hin, h1, h2, h3, h4⟩
    exact ⟨⟨hi2, by omega⟩, h1, h2, h3, h4⟩

lemma resistance_pred_eq (lows highs : List ℚ) (h : highs.length = lows.length)
    (i : ℕ) :
    (decide (2 ≤ i ∧ i < lows.length - 2) && isResistanceAt highs i) =
      decide (ResistanceCandidate highs i) := by
  simp only [isResistanceAt, ResistanceCandidate, ← Bool.decide_and,
    decide_eq_decide]
  constructor
  · rintro ⟨⟨hi2, hin⟩, h1, h2, h3, h4⟩
    exact ⟨hi2, by omega, h1, h2, h3, h4⟩
  · rintro ⟨hi2, hin, h1, h2, h3, h4⟩
    exact ⟨⟨hi2, by omega⟩, h1, h2, h3, h4⟩

/-- The two components of `findSupportResistance` in filter form. -/
lemma findSupportResistance_eq (lows highs : List ℚ)
    (h : highs.length = lows.length) :
    findSupportResistance lows highs =
      (if (sortDesc (lastUpTo3 (supportCandidateValues lows))).length ≠ 0 then
         sortDesc (lastUpTo3 (supportCandidateValues lows))
       else [lows.getD (lows.length - 1) 0],
       if (sortAsc (lastUpTo3 (resistanceCandidateValues highs))).length ≠ 0 then
         sortAsc (lastUpTo3 (resistanceCandidateValues highs))
       else [highs.getD (highs.length - 1) 0]) := by
  have hsc : ((List.range lows.length).filter fun i =>
      decide (2 ≤ i ∧ i < lows.length - 2) && isSupportAt lows i) =
      (List.range lows.length).filter fun i => decide (SupportCandidate lows i) :=
    List.filter_congr fun i _ => support_pred_eq lows i
  have hrc : ((List.range lows.length).filter fun i =>
      decide (2 ≤ i ∧ i < lows.length - 2) && isResistanceAt highs i) =
      (List.range highs.length).filter fun i =>
        decide (ResistanceCandidate highs i) := by
    rw [h]
    exact List.filter_congr fun i _ => resistance_pred_eq lows highs h i
  simp only [findSupportResistance]
  rw [foldl_scan_pair (fun i => 2 ≤ i ∧ i < lows.length - 2)
    (isSupportAt lows) (isResistanceAt highs)
    (fun i => lows.getD i 0) (fun i => highs.getD i 0) (List.range lows.length)
    ([], [])]
  simp only [List.nil_append, hsc, hrc]
  rfl

/-- C7: the Level Detector scans interior indices (2-point margins), a support
candidate is a strict 5-point local minimum of the lows and a resistance
candidate a strict 5-point local maximum of the highs; the returned support
list is the most recent up-to-3 support-candidate values sorted descending and
the resistance list the most recent up-to-3 resistance-candidate values sorted
ascending; with no candidates of a kind, that list falls back to the single
most recent low (support) / high (resistance). -/
theorem findSupportResistance_spec (lows highs : List ℚ)
    (h : highs.length = lows.length) :
    (findSupportResistance lows highs).1 =
      (if supportCandidateValues lows = [] then [lows.getD (lows.length - 1) 0]
       else sortDesc (lastUpTo3 (supportCandidateValues lows))) ∧
    (findSupportResistance lows highs).2 =
      (if resistanceCandidateValues highs = [] then
         [highs.getD (highs.length - 1) 0]
       else sortAsc (lastUpTo3 (resistanceCandidateValues highs))) := by
  rw [findSupportResistance_eq lows highs h]
  constructor
  · show (if _ ≠ 0 then _ else _) = _
    rcases eq_or_ne (supportCandidateValues lows) [] with hsc | hsc
    · rw [if_pos hsc]
      rw [if_neg]
      simp [hsc, sortDesc, lastUpTo3]
    · rw [if_neg hsc, if_pos]
      rw [sortDesc, List.length_mergeSort, lastUpTo3, List.length_drop]
      have : 0 < (supportCandidateValues lows).length :=
        List.length_pos.mpr hsc
      omega
  · show (if _ ≠ 0 then _ else _) = _
    rcases eq_or_ne (resistanceCandidateValues highs) [] with hrc | hrc
    · rw [if_pos hrc]
      rw [if_neg]
      simp [hrc, sortAsc, lastUpTo3]
    · rw [if_neg hrc, if_pos]
      rw [sortAsc, List.length_mergeSort, lastUpTo3, List.length_drop]
      have : 0 < (resistanceCandidateValues highs).length :=
        List.length_pos.mpr hrc
      omega

/-- Witness for C7 at `lows = [3,2,1,2,3]`, `highs = [1,2,3,2,1]` (index 2 is
both a support and a resistance candidate). -/
theorem findSupportResistance_spec_witness :
    List.length [(1 : ℚ), 2, 3, 2, 1] = List.length [(3 : ℚ), 2, 1, 2, 3] ∧
      ((findSupportResistance [(3 : ℚ), 2, 1, 2, 3] [(1 : ℚ), 2, 3, 2, 1]).1 =
        (if supportCandidateValues [(3 : ℚ), 2, 1, 2, 3] = [] then
          [List.getD [(3 : ℚ), 2, 1, 2, 3] (List.length [(3 : ℚ), 2, 1, 2, 3] - 1) 0]
         else sortDesc (lastUpTo3 (supportCandidateValues [(3 : ℚ), 2, 1, 2, 3]))) ∧
       (findSupportResistance [(3 : ℚ), 2, 1, 2, 3] [(1 : ℚ), 2, 3, 2, 1]).2 =
        (if resistanceCandidateValues [(1 : ℚ), 2, 3, 2, 1] = [] then
          [List.getD [(1 : ℚ), 2, 3, 2, 1] (List.length [(1 : ℚ), 2, 3, 2, 1] - 1) 0]
         else sortAsc (lastUpTo3 (resistanceCandidateValues [(1 : ℚ), 2, 3, 2, 1])))) :=
  ⟨rfl, findSupportResistance_spec [(3 : ℚ), 2, 1, 2, 3] [(1 : ℚ), 2, 3, 2, 1] rfl⟩

/-- C10: for non-empty lows and highs the Level Detector returns non-empty
support and resistance lists of between 1 and 3 levels — the fallback
guarantees at least one, `slice(-3)` at most three.  (For empty input the
fallback index `length - 1` is out of bounds — JS `undefined` — so
non-emptiness is a genuine precondition.) -/
theorem findSupportResistance_card (lows highs : List ℚ)
    (h1 : lows ≠ []) (h2 : highs ≠ []) :
    1 ≤ (findSupportResistance lows highs).1.length ∧
    (findSupportResistance lows highs).1.length ≤ 3 ∧
    1 ≤ (findSupportResistance lows highs).2.length ∧
    (findSupportResistance lows highs).2.length ≤ 3 := by
  simp only [findSupportResistance]
  rw [foldl_scan_pair (fun i => 2 ≤ i ∧ i < lows.length - 2)
    (isSupportAt lows) (isResistanceAt highs)
    (fun i => lows.getD i 0) (fun i => highs.getD i 0) (List.range lows.length)
    ([], [])]
  simp only [List.nil_append]
  constructor
  · split_ifs with hc
    · omega
    · simp
  constructor
  · split_ifs with hc
    · rw [List.length_mergeSort, List.length_drop]
      omega
    · simp
  constructor
  · split_ifs with hc
    · omega
    · simp
  · split_ifs with hc
    · rw [List.length_mergeSort, List.length_drop]
      omega
    · simp

/-- Witness for C10 at `lows = [1,2]`, `highs = [3,4]`. -/
theorem findSupportResistance_card_witness :
    [(1 : ℚ), 2] ≠ [] ∧ [(3 : ℚ), 4] ≠ [] ∧
      (1 ≤ (findSupportResistance [(1 : ℚ), 2] [(3 : ℚ), 4]).1.length ∧
       (findSupportResistance [(1 : ℚ), 2] [(3 : ℚ), 4]).1.length ≤ 3 ∧
       1 ≤ (findSupportResistance [(1 : ℚ), 2] [(3 : ℚ), 4]).2.length ∧
       (findSupportResistance [(1 : ℚ), 2] [(3 : ℚ), 4]).2.length ≤ 3) :=
  ⟨by decide, by decide,
    findSupportResistance_card [(1 : ℚ), 2] [(3 : ℚ), 4] (by decide) (by decide)⟩

/-! ## Claim theorems -/

/-- C1: for every input to the Signal Synthesizer, the returned confidence is
the rounded sum of the four sub-signal contributions and is an integer in
`[0,100]`, and — although the code branches on the unrounded sum — the verdict
is `BUY` exactly when the rounded confidence exceeds 50, `SELL` exactly when
it is below 50, and `HOLD` exactly at 50; the rounding is harmless because
every reachable sum is a multiple of 12.5. -/
theorem calculateSignal_spec (d : SignalInput) :
    (calculateSignal d).confidence = jsRound (buySignals d) ∧
    0 ≤ (calculateSignal d).confidence ∧ (calculateSignal d).confidence ≤ 100 ∧
    ((calculateSignal d).signal = "BUY" ↔ 50 < (calculateSignal d).confidence) ∧
    ((calculateSignal d).signal = "SELL" ↔ (calculateSignal d).confidence < 50) ∧
    ((calculateSignal d).signal = "HOLD" ↔ (calculateSignal d).confidence = 50) := by
  simp only [calculateSignal, buySignals, jsRound]
  split_ifs <;> (try norm_num at *) <;> decide

/-- C5: the Sentiment Scorer returns the clamp to `[0,100]` of
`50 + rsiAdjust + macdAdjust + priceVsMA20` (the price-vs-MA20 deviation is
added unclamped, before the single final clamp), and labels the clamped score
by the thresholds 80/60/40/20. -/
theorem determineMarketSentiment_spec (r m p : ℚ) :
    (determineMarketSentiment r m p).2 =
      max 0 (min 100 (50 + rsiAdjust r + macdAdjust m + p)) ∧
    (determineMarketSentiment r m p).1 =
      sentimentLabel (determineMarketSentiment r m p).2 := by
  constructor
  · simp only [determineMarketSentiment, rsiAdjust, macdAdjust]
    split_ifs <;> ring_nf
  · simp only [determineMarketSentiment, sentimentLabel]

/-- C4: at every index `i ≥ period` the RSI equals `100 - 100/(1+RS)` with
`RS = avgGain/avgLoss`, where `avgGain`/`avgLoss` are the simple
divide-by-`period` averages of the zero-filled positive and absolute-negative
close-to-close changes over the trailing `period` changes ending at `i`,
recomputed independently at each index (`rsiSpec`, which returns exactly 100
when `avgLoss = 0`); at every index `i < period` the output is absent. -/
theorem calculateRSI_spec (closes : List ℚ) (period i : ℕ)
    (h : i < closes.length) :
    (calculateRSI closes period).getD i none =
      if i < period then none else some (rsiSpec closes period i) := by
  unfold calculateRSI
  rw [getD_map_range _ _ _ h]
  by_cases hip : i < period
  · simp [hip]
  · simp only [hip, if_false]
    unfold rsiSpec
    have hgain :
        ((List.range period).map fun t => (i : ℕ) - period + 1 + t).map
            (fun j => if 0 < j then
              (if 0 < closes.getD j 0 - closes.getD (j - 1) 0 then
                closes.getD j 0 - closes.getD (j - 1) 0 else 0)
              else 0) =
          ((List.range period).map fun t =>
            closes.getD (i - period + 1 + t) 0 - closes.getD (i - period + t) 0).map
            (fun c => max c 0) := by
      rw [List.map_map, List.map_map]
      refine List.map_congr_left fun t _ => ?_
      have hj : 0 < i - period + 1 + t := by omega
      have hj1 : i - period + 1 + t - 1 = i - period + t := by omega
      simp only [Function.comp_apply, hj, if_true, hj1]
      rcases le_or_lt (closes.getD (i - period + 1 + t) 0 -
          closes.getD (i - period + t) 0) 0 with hc | hc
      · rw [if_neg (by linarith), max_eq_right hc]
      · rw [if_pos hc, max_eq_left hc.le]
    have hloss :
        ((List.range period).map fun t => (i : ℕ) - period + 1 + t).map
            (fun j => if 0 < j then
              (if closes.getD j 0 - closes.getD (j - 1) 0 < 0 then
                |closes.getD j 0 - closes.getD (j - 1) 0| else 0)
              else 0) =
          ((List.range period).map fun t =>
            closes.getD (i - period + 1 + t) 0 - closes.getD (i - period + t) 0).map
            (fun c => max (-c) 0) := by
      rw [List.map_map, List.map_map]
      refine List.map_congr_left fun t _ => ?_
      have hj : 0 < i - period + 1 + t := by omega
      have hj1 : i - period + 1 + t - 1 = i - period + t := by omega
      simp only [Function.comp_apply, hj, if_true, hj1]
      rcases le_or_lt (closes.getD (i - period + 1 + t) 0 -
          closes.getD (i - period + t) 0) 0 with hc | hc
      · rcases lt_or_eq_of_le hc with hc' | hc'
        · rw [if_pos hc', abs_of_neg hc', max_eq_left (by linarith)]
        · rw [if_neg (by rw [hc']; exact lt_irrefl 0), hc']; simp
      · rw [if_neg (by linarith), max_eq_right (by linarith)]
    simp only [hgain, hloss]
    split_ifs <;> rfl

/-- C6: for every period `P` and close series shorter than `P`, every
per-index output of the SMA, EMA, RSI and Bollinger engines for period `P` is
absent at every index, and likewise every MACD output when the series is
shorter than the MACD slow period 26 (which subsumes its periods 9, 12 and 26,
since `N < P ≤ 26` in each instance); all the embedded engines are total
functions, so no exception is possible. -/
theorem insufficient_data_absent (period : ℕ) (closes : List ℚ)
    (sqrtQ : ℚ → ℚ) (k : ℚ) (h : closes.length < period) :
    calculateSMA closes period = List.replicate closes.length none ∧
    calculateEMA closes period = List.replicate closes.length none ∧
    calculateRSI closes period = List.replicate closes.length none ∧
    (calculateBollingerBands sqrtQ closes period k).upper =
      List.replicate closes.length none ∧
    (calculateBollingerBands sqrtQ closes period k).middle =
      List.replicate closes.length none ∧
    (calculateBollingerBands sqrtQ closes period k).lower =
      List.replicate closes.length none ∧
    (closes.length < 26 →
      (calculateMACD closes).macd = List.replicate closes.length none ∧
      (calculateMACD closes).signal = List.replicate closes.length none ∧
      (calculateMACD closes).histogram = List.replicate closes.length none) := by
  have hsma : calculateSMA closes period = List.replicate closes.length none := by
    unfold calculateSMA
    refine map_range_none _ _ fun i hi => ?_
    rw [if_pos]
    omega
  have hrsi : calculateRSI closes period = List.replicate closes.length none := by
    unfold calculateRSI
    refine map_range_none _ _ fun i hi => ?_
    rw [if_pos]
    omega
  have hbu : (calculateBollingerBands sqrtQ closes period k).upper =
      List.replicate closes.length none := by
    simp only [calculateBollingerBands]
    refine map_range_none _ _ fun i hi => ?_
    rw [if_pos]
    omega
  have hbl : (calculateBollingerBands sqrtQ closes period k).lower =
      List.replicate closes.length none := by
    simp only [calculateBollingerBands]
    refine map_range_none _ _ fun i hi => ?_
    rw [if_pos]
    omega
  refine ⟨hsma, calculateEMA_all_none closes period h, hrsi, hbu, hsma, hbl, ?_⟩
  intro h26
  have hmacd : macdLine closes = List.replicate closes.length none := by
    unfold macdLine
    refine map_range_none _ _ fun i hi => ?_
    rw [calculateEMA_all_none closes 26 h26, getD_replicate_none]
    cases (calculateEMA closes 12).getD i none <;> rfl
  have hsig : macdSignalLine closes = List.replicate closes.length none := by
    unfold macdSignalLine
    rw [hmacd, expandSignal_replicate_none]
  have hhist : macdHistogram closes = List.replicate closes.length none := by
    unfold macdHistogram
    rw [hmacd]
    simp only [List.length_replicate]
    refine map_range_none _ _ fun i hi => ?_
    rw [getD_replicate_none]
  exact ⟨hmacd, hsig, hhist⟩

/-- Witness for C6 at `period = 2`, `closes = [5]` (and for the MACD clause,
`1 < 26`). -/
theorem insufficient_data_absent_witness :
    List.length [(5 : ℚ)] < 2 ∧
      (calculateSMA [(5 : ℚ)] 2 = List.replicate 1 none ∧
       calculateEMA [(5 : ℚ)] 2 = List.replicate 1 none ∧
       calculateRSI [(5 : ℚ)] 2 = List.replicate 1 none ∧
       (calculateBollingerBands id [(5 : ℚ)] 2 2).upper = List.replicate 1 none ∧
       (calculateBollingerBands id [(5 : ℚ)] 2 2).middle = List.replicate 1 none ∧
       (calculateBollingerBands id [(5 : ℚ)] 2 2).lower = List.replicate 1 none ∧
       (List.length [(5 : ℚ)] < 26 →
         (calculateMACD [(5 : ℚ)]).macd = List.replicate 1 none ∧
         (calculateMACD [(5 : ℚ)]).signal = List.replicate 1 none ∧
         (calculateMACD [(5 : ℚ)]).histogram = List.replicate 1 none)) :=
  ⟨by decide, insufficient_data_absent 2 [(5 : ℚ)] id 2 (by decide)⟩

/-- C8: for every close series, period and Bollinger width, the SMA, EMA, RSI,
MACD (line, signal and histogram) and Bollinger (upper, middle, lower) output
series all have exactly the length of the input series — absent entries are
represented in place, never omitted. -/
theorem output_length_invariant (closes : List ℚ) (period : ℕ)
    (sqrtQ : ℚ → ℚ) (k : ℚ) :
    (calculateSMA closes period).length = closes.length ∧
    (calculateEMA closes period).length = closes.length ∧
    (calculateRSI closes period).length = closes.length ∧
    (calculateMACD closes).macd.length = closes.length ∧
    (calculateMACD closes).signal.length = closes.length ∧
    (calculateMACD closes).histogram.length = closes.length ∧
    (calculateBollingerBands sqrtQ closes period k).upper.length = closes.length ∧
    (calculateBollingerBands sqrtQ closes period k).middle.length = closes.length ∧
    (calculateBollingerBands sqrtQ closes period k).lower.length = closes.length := by
  refine ⟨by simp [calculateSMA], calculateEMA_length closes period,
    by simp [calculateRSI], macdLine_length closes, ?_, ?_, ?_, ?_, ?_⟩
  · show (macdSignalLine closes).length = closes.length
    unfold macdSignalLine
    rw [expandSignal_length, macdLine_length]
  · show (macdHistogram closes).length = closes.length
    unfold macdHistogram
    rw [List.length_map, List.length_range, macdLine_length]
  · simp only [calculateBollingerBands]
    simp
  · show (calculateSMA closes period).length = closes.length
    simp [calculateSMA]
  · simp only [calculateBollingerBands]
    simp

/-- C3, counterexample to the claim as stated: for the constant series of 34
ones, index 33 is a defined MACD index — in fact the 9th defined one
(`countP = 8` defined entries precede it) — and the corresponding entry of the
9-period EMA over the compacted MACD values is defined and equal to `0`; yet
the returned signal line is absent there, because the re-expansion
(`signalEma[validIndex] || null`) maps the falsy value `0` to `null`.  The
claim asserts the signal is absent only where that EMA entry is absent, so it
fails at this input. -/
theorem macd_signal_zero_counterexample :
    (calculateMACD (List.replicate 34 (1 : ℚ))).macd.getD 33 none = some 0 ∧
    ((calculateMACD (List.replicate 34 (1 : ℚ))).macd.take 33).countP
      (fun o => o.isSome) = 8 ∧
    (calculateEMA ((calculateMACD (List.replicate 34 (1 : ℚ))).macd.filterMap id)
      9).getD 8 none = some 0 ∧
    (calculateMACD (List.replicate 34 (1 : ℚ))).signal.getD 33 none = none := by
  have hm : macdLine (List.replicate 34 (1 : ℚ)) =
      (List.range 34).map fun (j : ℕ) =>
        if (j : ℤ) < 25 then none else some (0 : ℚ) := by
    unfold macdLine
    rw [List.length_replicate,
      calculateEMA_replicate (1 : ℚ) 12 34 (by norm_num) (by norm_num),
      calculateEMA_replicate (1 : ℚ) 26 34 (by norm_num) (by norm_num)]
    refine List.map_congr_left fun i hi => ?_
    have hi' : i < 34 := List.mem_range.mp hi
    rw [getD_map_range _ _ _ hi', getD_map_range _ _ _ hi']
    by_cases h2 : (i : ℤ) < 25
    · by_cases h1 : (i : ℤ) < 11
      · norm_num [h1, h2]
      · norm_num [h1, h2]
    · have h1 : ¬(i : ℤ) < 11 := by omega
      norm_num [h1, h2]
  have hv : (List.map (fun (j : ℕ) => if (j : ℤ) < 25 then none else some (0 : ℚ))
      (List.range 34)).filterMap id = List.replicate 9 (0 : ℚ) := by decide
  refine ⟨?_, ?_, ?_, ?_⟩
  · show (macdLine (List.replicate 34 (1 : ℚ))).getD 33 none = some 0
    rw [hm]; decide
  · show ((macdLine (List.replicate 34 (1 : ℚ))).take 33).countP
      (fun o => o.isSome) = 8
    rw [hm]; decide
  · show (calculateEMA ((macdLine (List.replicate 34 (1 : ℚ))).filterMap id)
      9).getD 8 none = some 0
    rw [hm, hv, calculateEMA_replicate 0 9 9 (by norm_num) (by norm_num)]
    decide
  · show (expandSignal (macdLine (List.replicate 34 (1 : ℚ)))
      (calculateEMA ((macdLine (List.replicate 34 (1 : ℚ))).filterMap id) 9)).getD
        33 none = none
    rw [hm, hv, calculateEMA_replicate 0 9 9 (by norm_num) (by norm_num)]
    decide

/-- C3 (amended): the signal line, positionally — absent wherever MACD is
absent, and at the `k`-th index where MACD is defined it equals the `k`-th
entry of the 9-period EMA over the compacted MACD values, except that it is
absent where that EMA entry is absent **or exactly zero** (the re-expansion
uses a JS falsy check); so the signal-line warm-up still counts from the first
defined MACD value, not from the start of the series. -/
theorem macd_signal_line_spec (closes : List ℚ) (i : ℕ)
    (h : i < closes.length) :
    (calculateMACD closes).signal.getD i none =
      signalSpec (calculateMACD closes).macd
        (calculateEMA ((calculateMACD closes).macd.filterMap id) 9) i := by
  show (macdSignalLine closes).getD i none =
    signalSpec (macdLine closes) (calculateEMA ((macdLine closes).filterMap id) 9) i
  unfold macdSignalLine macdSignalEma macdValid
  exact expandSignal_getD _ _ i (by rw [macdLine_length]; exact h)

/-- Witness for C3 (amended) at `closes = [7]`, `i = 0`. -/
theorem macd_signal_line_spec_witness :
    (0 : ℕ) < List.length [(7 : ℚ)] ∧
      (calculateMACD [(7 : ℚ)]).signal.getD 0 none =
        signalSpec (calculateMACD [(7 : ℚ)]).macd
          (calculateEMA ((calculateMACD [(7 : ℚ)]).macd.filterMap id) 9) 0 :=
  ⟨by decide, macd_signal_line_spec [(7 : ℚ)] 0 (by decide)⟩

/-- C2 (evidence for the code-side behaviour): with raw arrays of mismatched
lengths — closes has 2 defined entries, highs/lows/volumes only 1 — the route
evaluation performs no length comparison and still produces a result bundle
(`Except.ok`), instead of failing fast with a descriptive error as the spec
requires.  The only error exits of the handler (`chartOk`/`quoteOk`) test
presence, not shape. -/
theorem getRoute_no_shape_check :
    (List.filterMap id [some (1 : ℚ), some 2]).length ≠
      (List.filterMap id [some (3 : ℚ)]).length ∧
    producedBundle (getRoute true true id
      [some (1 : ℚ), some 2] [some (3 : ℚ)] [some (1 : ℚ)] [some (7 : ℚ)]) =
      true := by
  exact ⟨by decide, rfl⟩

/-- C9: the neutral-default substitution feeding the Signal Synthesizer
(`latestX || default`, modelled by `orDefault`) triggers on any falsy value,
not only on absent ones: the strictly decreasing 15-point series has a
*defined* latest RSI of exactly 0 (all-loss window), which `orDefault` replaces
with the neutral 50; likewise a defined MA/band value of exactly 0 is replaced
by the current price (third conjunct, for every price `p`). -/
theorem orDefault_falsy_substitution :
    (calculateRSI [(15 : ℚ), 14, 13, 12, 11, 10, 9, 8, 7, 6, 5, 4, 3, 2, 1]
      14).getD 14 none = some 0 ∧
    orDefault (some 0) 50 = 50 ∧
    (∀ p : ℚ, orDefault (some 0) p = p) := by
  refine ⟨?_, rfl, fun p => rfl⟩
  unfold calculateRSI
  rw [getD_map_range _ _ _ (by norm_num)]
  have hjs : (List.range 14).map (fun t => 14 - 14 + 1 + t) =
      [1, 2, 3, 4, 5, 6, 7, 8, 9, 10, 11, 12, 13, 14] := by decide
  norm_num [hjs, List.getD]

/-- Witness for C4 at `closes = [1,2,3]`, `period = 1`, `i = 1`. -/
theorem calculateRSI_spec_witness :
    (1 : ℕ) < List.length [(1 : ℚ), 2, 3] ∧
      (calculateRSI [(1 : ℚ), 2, 3] 1).getD 1 none =
        if (1 : ℕ) < 1 then none else some (rsiSpec [(1 : ℚ), 2, 3] 1 1) :=
  ⟨by decide, calculateRSI_spec [(1 : ℚ), 2, 3] 1 1 (by decide)⟩

end StockAnalyzer
